import Mathlib

/-!
Verification development for the configuration engine of `imagesync-pro`
(`src/configservice.js`).

We shallowly embed the `ConfigService` singleton: the in-memory document,
the dotted/bracket path parser `_parsePath`, the navigation in `getConfig`
and `setConfig`, the `loadConfig` state transition, the CSV-save shape
heuristic of `saveConfig`, and the debounce logic of `watchConfig` /
`unwatchConfig`.

Modelling conventions:
* JavaScript values reachable in a config document are modelled by `Value`:
  `null`, `undefined`, booleans, numbers (the claims only exercise integral
  numbers, so `Int` is used), strings, plain objects (association list of own
  enumerable string keys, in insertion order), and arrays.  A JS array can
  carry ordinary string-keyed own properties besides its elements, and element
  writes past the current length create holes (which read back as
  `undefined`); we model an array as an element list (holes stored as
  `Value.undef`) together with its non-index own properties.  Exotic
  prototype-level behaviour (inherited properties, the special `length`
  property, boxed-primitive properties such as `"ab".length`) is outside the
  document model and not represented.
* Property reads that yield JS `undefined` are modelled as `Option.none`;
  operations that throw a `TypeError` (property access on `null`/`undefined`)
  are modelled by an `Option`-valued result being `none`.
-/

namespace ConfigService

/-- A node of the in-memory config document (a JS value). -/
inductive Value where
  | null : Value
  | undef : Value
  | bool (b : Bool) : Value
  | num (n : Int) : Value
  | str (s : String) : Value
  | obj (fields : List (String × Value)) : Value
  | arr (elems : List Value) (props : List (String × Value)) : Value

/-- One parsed path segment: a string key or a bracketed numeric index,
mirroring the two capture groups of the `_parsePath` regex. -/
inductive Seg where
  | key (s : String) : Seg
  | idx (n : Nat) : Seg
  deriving DecidableEq, Repr

/-- Numeric value of a digit run, as `Number(m[2])` computes it. -/
def natOfDigits (cs : List Char) : Nat :=
  cs.foldl (fun a c => a * 10 + (c.toNat - '0'.toNat)) 0

/-- Characters allowed inside a key fragment: the regex's first alternative
`[^[.\]]+` excludes `[`, `.` and `]`. -/
def isPlainChar (c : Char) : Bool :=
  c ≠ '[' && c ≠ '.' && c ≠ ']'

/-- The scan loop of `_parsePath`'s regex `([^[.\]]+)|\[(\d+)\]` under
`exec`: at each position, a maximal run of non-`[.]` characters becomes a
key; a `[`-digits-`]` group becomes a numeric index; any other character is
skipped and the scan resumes one position later.  The extra fuel argument is
only there to make the recursion structural; every step consumes at least
one character, so fuel equal to the input length (as `parseSegs` supplies)
never runs out. -/
def parseSegsF : Nat → List Char → List Seg
  | _, [] => []
  | 0, _ :: _ => []
  | f + 1, c :: cs =>
    if c = '[' then
      match cs.dropWhile Char.isDigit with
      | ']' :: rest2 =>
        if (cs.takeWhile Char.isDigit).isEmpty then parseSegsF f cs
        else Seg.idx (natOfDigits (cs.takeWhile Char.isDigit)) :: parseSegsF f rest2
      | _ => parseSegsF f cs
    else if c = '.' ∨ c = ']' then parseSegsF f cs
    else
      Seg.key (String.mk (c :: cs.takeWhile isPlainChar))
        :: parseSegsF f (cs.dropWhile isPlainChar)

/-- The regex scan at full fuel. -/
def parseSegs (l : List Char) : List Seg := parseSegsF l.length l

/-- `ConfigService._parsePath`: the falsy guard (`if (!key) return []`)
followed by the regex scan. -/
def parsePath (key : String) : List Seg :=
  if key = "" then [] else parseSegs key.data

/-- JS truthiness of a document value (`false`, `0`, `""`, `null` and
`undefined` are falsy; every object and array is truthy). -/
def truthy : Value → Bool
  | .null => false
  | .undef => false
  | .bool b => b
  | .num n => n ≠ 0
  | .str s => s ≠ ""
  | .obj _ => true
  | .arr _ _ => true

/-- `typeof v === 'object'` (true for plain objects, arrays and `null`). -/
def isObjLike : Value → Bool
  | .null => true
  | .obj _ => true
  | .arr _ _ => true
  | _ => false

/-- `Array.isArray(v)`. -/
def isArray : Value → Bool
  | .arr _ _ => true
  | _ => false

/-- The value is a container node of the document model (mapping or
sequence). -/
def isContainer : Value → Bool
  | .obj _ => true
  | .arr _ _ => true
  | _ => false

/-- The value is a scalar node of the document model (string, number,
boolean or null). -/
def isScalar : Value → Bool
  | .null => true
  | .bool _ => true
  | .num _ => true
  | .str _ => true
  | _ => false

/-- A string that is a canonical JS array index (`arr["0"]` addresses element
0, while `arr["00"]` is an ordinary property). -/
def canonIndex (s : String) : Option Nat :=
  if s ≠ "" ∧ s.data.all Char.isDigit ∧ (s = "0" ∨ s.data.head? ≠ some '0')
  then some (natOfDigits s.data) else none

/-- The property key a segment addresses on a plain object: JS coerces a
numeric segment to its decimal string (`obj[0]` reads `obj["0"]`). -/
def segPropKey : Seg → String
  | .key s => s
  | .idx n => toString n

/-- The array slot a segment addresses, if it is (or coerces to) an index. -/
def segArrIx : Seg → Option Nat
  | .idx n => some n
  | .key s => canonIndex s

/-- First-match lookup in an own-property association list. -/
def assocGet : List (String × Value) → String → Option Value
  | [], _ => none
  | (k, v) :: rest, q => if k = q then some v else assocGet rest q

/-- JS own-property write: replace the first binding of the key, else append
(insertion order preserved). -/
def assocSet : List (String × Value) → String → Value → List (String × Value)
  | [], q, v => [(q, v)]
  | (k, w) :: rest, q, v =>
    if k = q then (k, v) :: rest else (k, w) :: assocSet rest q v

/-- JS array element write: in range replaces the slot; past the end it pads
with holes (which read back as `undefined`). -/
def listSetPad : List Value → Nat → Value → List Value
  | _ :: rest, 0, x => x :: rest
  | [], 0, x => [x]
  | [], n + 1, x => Value.undef :: listSetPad [] n x
  | e :: rest, n + 1, x => e :: listSetPad rest n x

/-- Collapse a stored hole/`undefined` into the absent result, matching what
a JS property read produces. -/
def noUndef : Option Value → Option Value
  | some .undef => none
  | o => o

/-- JS property read `v[k]` on a document node, `none` meaning the read
yields `undefined`.  Scalars expose no document content (prototype-level
properties are outside the model); reads on `null`/`undefined` would throw,
but every call site below guards them. -/
def rawGet (v : Value) (k : Seg) : Option Value :=
  match v with
  | .obj fs => noUndef (assocGet fs (segPropKey k))
  | .arr es ps =>
    match segArrIx k with
    | some n => noUndef es[n]?
    | none => noUndef (assocGet ps (segPropKey k))
  | _ => none

/-- JS property write `v[k] = x`, `none` meaning a thrown `TypeError`
(write on `null`/`undefined`); a write on another primitive is silently
discarded in sloppy mode, leaving the value unchanged. -/
def rawSet (v : Value) (k : Seg) (x : Value) : Option Value :=
  match v with
  | .null => none
  | .undef => none
  | .obj fs => some (.obj (assocSet fs (segPropKey k) x))
  | .arr es ps =>
    match segArrIx k with
    | some n => some (.arr (listSetPad es n x) ps)
    | none => some (.arr es (assocSet ps (segPropKey k) x))
  | other => some other

/-- The intermediate-container step of `setConfig`'s walk: given the current
child value (`obj[k]`) and the *next* segment, either keep the child or
materialize the container the next segment requires —
`if (typeof nextK === 'number') { if (!Array.isArray(obj[k])) obj[k] = [] }
else { if (!obj[k] || typeof obj[k] !== 'object') obj[k] = {} }`. -/
def materializeChild (child : Option Value) (next : Seg) : Value :=
  match next with
  | .idx _ =>
    match child with
    | some (.arr es ps) => .arr es ps
    | _ => .arr [] []
  | .key _ =>
    match child with
    | some c => if truthy c && isObjLike c then c else .obj []
    | none => .obj []

/-- The walk-and-assign loop of `setConfig`, written as a pure recursion over
the remaining segments: `setGo cur k rest v` mutates `cur` along `k :: rest`
and returns the updated node, or `none` for a thrown `TypeError` (which in
the source can only happen when the walk runs through a primitive or
`null`). -/
def setGo (cur : Value) (k : Seg) (rest : List Seg) (v : Value) : Option Value :=
  match rest with
  | [] => rawSet cur k v
  | k2 :: rest' =>
    match cur with
    | .obj fs =>
      match setGo (materializeChild (rawGet (.obj fs) k) k2) k2 rest' v with
      | some child => rawSet (.obj fs) k child
      | none => none
    | .arr es ps =>
      match setGo (materializeChild (rawGet (.arr es ps) k) k2) k2 rest' v with
      | some child => rawSet (.arr es ps) k child
      | none => none
    | _ =>
      -- On a primitive the materializing write is discarded, `obj = obj[k]`
      -- reads back `undefined`, and the next property access throws.
      none

/-- `ConfigService.setConfig`: parse the path, return unchanged on an empty
segment list, otherwise walk/materialize and assign the final segment. -/
def setConfig (d : Value) (key : String) (v : Value) : Option Value :=
  match parsePath key with
  | [] => some d
  | k :: rest => setGo d k rest v

/-- One step of `getConfig`'s reduce:
`acc && acc[k] !== undefined ? acc[k] : undefined`. -/
def getStep (acc : Option Value) (k : Seg) : Option Value :=
  match acc with
  | some a => if truthy a then rawGet a k else none
  | none => none

/-- `ConfigService.getConfig`: the whole document for a falsy key, otherwise
the reduce over the parsed segments, `none` playing JS `undefined`. -/
def getConfig (d : Value) (key : String) : Option Value :=
  if key = "" then some d
  else (parsePath key).foldl getStep (some d)

/-- The JS read `acc[k]` beyond the document's own structural content, for
the exotic properties the program resolves on document values: a string
scalar boxes to a String object whose own `length` is its character count
and whose index properties are its characters, and an array's own `length`
is its element count.  Inherited prototype-chain properties (`toString`,
`toFixed`, …) are functions, which `Value` cannot carry; the theorems below
therefore state absence only for the structural read `rawGet`, and the
roundtrip theorem excludes the segments on which the two reads differ. -/
def rawGetJs (v : Value) (k : Seg) : Option Value :=
  match v with
  | .str s =>
    match segArrIx k with
    | some n => (s.data[n]?).map (fun c => Value.str (String.mk [c]))
    | none => if k = Seg.key "length" then some (.num (s.data.length : Int)) else none
  | .arr es ps =>
    if k = Seg.key "length" then some (.num (es.length : Int))
    else rawGet (.arr es ps) k
  | _ => rawGet v k

/-- The reduce step of `getConfig` under the enriched read `rawGetJs`. -/
def getStepJs (acc : Option Value) (k : Seg) : Option Value :=
  match acc with
  | some a => if truthy a then rawGetJs a k else none
  | none => none

/-- `getConfig` under the enriched read: the same falsy-guarded reduce, with
the boxed-primitive and array `length` reads the real `acc[k]` performs. -/
def getConfigJs (d : Value) (key : String) : Option Value :=
  if key = "" then some d
  else (parsePath key).foldl getStepJs (some d)

/-- The suffix of a character list starting at its last `.`, if any. -/
def lastDotSuffix : List Char → Option (List Char)
  | [] => none
  | c :: cs =>
    match lastDotSuffix cs with
    | some s => some s
    | none => if c = '.' then some (c :: cs) else none

/-- The basename of a posix path: the characters after the last `/`. -/
def baseChars (p : String) : List Char :=
  (p.data.reverse.takeWhile (fun c => c != '/')).reverse

/-- `path.extname` (posix): the part of the basename from its last dot on; a
dot that starts the basename (a dotfile) yields no extension.  The remaining
Node corner cases (`".."` and friends) differ at most on names that carry no
supported extension either way. -/
def extname (p : String) : String :=
  match baseChars p with
  | [] => ""
  | _ :: bs =>
    match lastDotSuffix bs with
    | some s => String.mk s
    | none => ""

/-- The four supported on-disk formats. -/
inductive Format where
  | json : Format
  | ini : Format
  | xml : Format
  | csv : Format
  deriving DecidableEq, Repr

/-- `ext.toLowerCase()` (the extensions compared against are ASCII). -/
def lowerStr (s : String) : String :=
  String.mk (s.data.map Char.toLower)

/-- `ConfigService._detectFormat`: extension-based detection,
`none` playing the thrown `Unsupported config file extension` error. -/
def detectFormat (p : String) : Option Format :=
  let ext := lowerStr (extname p)
  if ext = ".json" then some Format.json
  else if ext = ".ini" then some Format.ini
  else if ext = ".xml" then some Format.xml
  else if ext = ".csv" then some Format.csv
  else none

/-- The mutable fields of the `ConfigService` instance that `loadConfig`
touches: the in-memory document and the remembered canonical path. -/
structure SvcState where
  config : Value
  configPath : Option String

/-- The failure modes of `loadConfig`, in the spec's taxonomy: the missing
file (`Config file does not exist`), the unknown extension
(`Unsupported config file extension`), and a decoder failure. -/
inductive LoadErr where
  | fileNotFound : LoadErr
  | unsupportedFormat : LoadErr
  | parseError : LoadErr
  deriving DecidableEq, Repr

/-- `ConfigService.loadConfig` as a state transition.  `fs` maps an absolute
path to the file's contents when it exists (`existsSync` / `readFile`);
`res` is `path.resolve`; `dec` stands for the per-format decode branch of
the switch (the external parsers, plus for CSV the two-column post-processing
of lines 44–56, which no claim inspects), `none` being a thrown parse error.
The returned state carries exactly the mutations performed before any throw:
every throw precedes both assignments, so an error leaves the state intact,
and success replaces the document wholesale and remembers the canonical
path. -/
def loadConfig (fs : String → Option String) (res : String → String)
    (dec : Format → String → Option Value) (st : SvcState) (p : String) :
    SvcState × Option LoadErr :=
  let abs := res p
  match fs abs with
  | none => (st, some LoadErr.fileNotFound)
  | some raw =>
    match detectFormat abs with
    | none => (st, some LoadErr.unsupportedFormat)
    | some fmt =>
      match dec fmt raw with
      | none => (st, some LoadErr.parseError)
      | some doc => ({ config := doc, configPath := some abs }, none)

/-- `typeof v !== 'object' || Array.isArray(v)`: the per-value test of
`saveConfig`'s first CSV branch. -/
def csvValueOk (v : Value) : Bool :=
  !(isObjLike v) || isArray v

/-- `Object.entries(v)`: the own enumerable properties in order — an
object's fields; an array's index entries (holes skipped) followed by its
ordinary properties; a string's characters; nothing for other primitives. -/
def jsOwnEntries : Value → List (String × Value)
  | .obj fs => fs
  | .arr es ps =>
    es.enum.filterMap
      (fun ie =>
        match ie.2 with
        | .undef => none
        | e => some (toString ie.1, e)) ++ ps
  | .str s => s.data.enum.map (fun ic => (toString ic.1, Value.str (String.mk [ic.2])))
  | _ => []

/-- `Object.values(v)`. -/
def jsOwnValues (v : Value) : List Value :=
  (jsOwnEntries v).map Prod.snd

/-- The outcome of `saveConfig`'s CSV-encode branch (lines 117–131): a
two-column key/value table, a header-plus-rows table from `records`, the
thrown `Unsupported structure for csv export`, or the `TypeError` that
`Object.values(null)` raises. -/
inductive CsvOutcome where
  | twoCol (rows : List (String × Value)) : CsvOutcome
  | table (rows : List Value) : CsvOutcome
  | saveErr : CsvOutcome
  | typeErr : CsvOutcome

/-- Whether an outcome is the header-plus-rows table. -/
def csvIsTable : CsvOutcome → Bool
  | .table _ => true
  | _ => false

/-- Whether an outcome is the two-column key/value table. -/
def csvIsTwoCol : CsvOutcome → Bool
  | .twoCol _ => true
  | _ => false

/-- The first CSV branch's guard:
`Object.values(this._config).every(v => typeof v !== 'object' || Array.isArray(v))`. -/
def csvFlatOk (d : Value) : Bool :=
  (jsOwnValues d).all csvValueOk

/-- Whether an optional value is an array (`Array.isArray(x)` on a read that
may have produced `undefined`). -/
def isArrayO : Option Value → Bool
  | some (.arr _ _) => true
  | _ => false

/-- `saveConfig`'s CSV shape dispatch: if every top-level own value passes
`typeof v !== 'object' || Array.isArray(v)`, the entries become the
two-column rows; otherwise, if `this._config.records` is an array, its
elements become the table rows; otherwise the save throws. -/
def csvOutcome (d : Value) : CsvOutcome :=
  match d with
  | .null => .typeErr
  | .undef => .typeErr
  | _ =>
    if csvFlatOk d then .twoCol (jsOwnEntries d)
    else
      match rawGet d (.key "records") with
      | some (.arr es _) => .table es
      | _ => .saveErr

/-- The fixed debounce window of `watchConfig`. -/
def DEBOUNCE_MS : Nat := 150

/-- The times at which the debounce timer of a watch entry actually expires,
given the (sorted) times of the raw change notifications: each notification
does `clearTimeout` and re-arms the timer for `t + DEBOUNCE_MS`, so an armed
timer survives only if the next notification comes no earlier than its
deadline.  Each expiry performs one reload and, on success, one `changed`
callback/emit. -/
def fireTimes : List Nat → List Nat
  | [] => []
  | [t] => [t + DEBOUNCE_MS]
  | t :: t' :: rest =>
    if t' < t + DEBOUNCE_MS then fireTimes (t' :: rest)
    else (t + DEBOUNCE_MS) :: fireTimes (t' :: rest)

/-- The times at which the `changed` notification is delivered: the timer
expiries whose reload succeeded (`ok`); a failed reload emits
`configReloadError` instead. -/
def changedTimes (ok : Nat → Bool) (ts : List Nat) : List Nat :=
  (fireTimes ts).filter ok

/-- The watch bookkeeping of the service: `watched` models the keys of
`_watchedFiles` (live `fs.watch` handles) and `pending` the armed,
not-yet-fired debounce timer deadlines reachable through
`_watchDebounces`. -/
structure WatchSvc where
  watched : List String
  pending : List (String × Nat)
  deriving DecidableEq, Repr

/-- `ConfigService.unwatchConfig`: resolve the path; close and drop the
watcher if one is registered; run the stored `clearTimeout` closure (killing
any armed debounce timer) and drop it. -/
def unwatchConfig (res : String → String) (s : WatchSvc) (p : String) : WatchSvc :=
  { watched := s.watched.filter (fun q => q != res p),
    pending := s.pending.filter (fun e => e.1 != res p) }

/-- A debounce timer expiring for path `abs`: a timer that is still armed
fires (performing the reload, callback and emit, reported as `true`) and
disarms; a cleared timer's callback never runs. -/
def fireTimer (s : WatchSvc) (abs : String) : WatchSvc × Bool :=
  if s.pending.any (fun e => e.1 == abs)
  then ({ s with pending := s.pending.filter (fun e => e.1 != abs) }, true)
  else (s, false)

/-! ## Helper lemmas -/

theorem truthy_of_container {v : Value} (h : isContainer v = true) :
    truthy v = true := by
  cases v <;> simp_all [isContainer, truthy]

theorem container_ne_undef {v : Value} (h : isContainer v = true) :
    v ≠ Value.undef := by
  cases v <;> simp_all [isContainer]

theorem noUndef_some {x : Value} (h : x ≠ Value.undef) :
    noUndef (some x) = some x := by
  cases x <;> simp_all [noUndef]

theorem assocGet_assocSet (l : List (String × Value)) (k : String) (v : Value) :
    assocGet (assocSet l k v) k = some v := by
  induction l with
  | nil => simp [assocSet, assocGet]
  | cons e rest ih =>
    obtain ⟨k1, v1⟩ := e
    by_cases hk : k1 = k
    · simp [assocSet, hk, assocGet]
    · simp [assocSet, hk, assocGet, ih]

theorem listSetPad_getElem (es : List Value) (n : Nat) (x : Value) :
    (listSetPad es n x)[n]? = some x := by
  induction n generalizing es with
  | zero => cases es <;> simp [listSetPad]
  | succ n ih => cases es <;> simp [listSetPad, ih]

/-- `rawSet` on a container never throws, yields a container, and the written
slot reads back as written (for a defined value). -/
theorem rawSet_container (cur : Value) (k : Seg) (x : Value)
    (hc : isContainer cur = true) :
    ∃ cur2, rawSet cur k x = some cur2 ∧ isContainer cur2 = true ∧
      (x ≠ Value.undef → rawGet cur2 k = some x) := by
  cases cur with
  | obj fs =>
    refine ⟨.obj (assocSet fs (segPropKey k) x), rfl, rfl, fun hx => ?_⟩
    simp [rawGet, assocGet_assocSet, noUndef_some hx]
  | arr es ps =>
    cases hix : segArrIx k with
    | some n =>
      refine ⟨.arr (listSetPad es n x) ps, by simp [rawSet, hix], rfl, fun hx => ?_⟩
      simp [rawGet, hix, listSetPad_getElem, noUndef_some hx]
    | none =>
      refine ⟨.arr es (assocSet ps (segPropKey k) x), by simp [rawSet, hix], rfl, fun hx => ?_⟩
      simp [rawGet, hix, assocGet_assocSet, noUndef_some hx]
  | null => simp [isContainer] at hc
  | undef => simp [isContainer] at hc
  | bool b => simp [isContainer] at hc
  | num n => simp [isContainer] at hc
  | str s => simp [isContainer] at hc

theorem materializeChild_container (o : Option Value) (k2 : Seg) :
    isContainer (materializeChild o k2) = true := by
  cases k2 with
  | idx n =>
    cases o with
    | none => rfl
    | some c => cases c <;> simp [materializeChild, isContainer]
  | key s =>
    cases o with
    | none => rfl
    | some c => cases c <;> simp [materializeChild, isContainer, truthy, isObjLike]

/-- On a container, a segment other than the key `"length"` reads the same
under the enriched and the structural read: the two differ only at an
array's `length`. -/
theorem getStepJs_eq_getStep {v : Value} (k : Seg) (hc : isContainer v = true)
    (hk : k ≠ Seg.key "length") : getStepJs (some v) k = getStep (some v) k := by
  cases v with
  | obj fs => rfl
  | arr es ps => simp [getStepJs, getStep, rawGetJs, hk]
  | null => simp [isContainer] at hc
  | undef => simp [isContainer] at hc
  | bool b => simp [isContainer] at hc
  | num n => simp [isContainer] at hc
  | str s => simp [isContainer] at hc

/-- The walk of `setConfig` on a container store never throws, keeps the root
a container, and the reduce of `getConfig` over the very segments just
written recovers the written value — also under the enriched read, provided
no written segment is the key `"length"` (where an array read diverges from
the stored property). -/
theorem setGo_roundtrip (rest : List Seg) :
    ∀ (k : Seg) (cur v : Value), isContainer cur = true → v ≠ Value.undef →
      ∃ cur2, setGo cur k rest v = some cur2 ∧ isContainer cur2 = true ∧
        List.foldl getStep (some cur2) (k :: rest) = some v ∧
        ((∀ seg ∈ k :: rest, seg ≠ Seg.key "length") →
          List.foldl getStepJs (some cur2) (k :: rest) = some v) := by
  induction rest with
  | nil =>
    intro k cur v hc hv
    obtain ⟨cur2, h1, h2, h3⟩ := rawSet_container cur k v hc
    have hget : getStep (some cur2) k = some v := by
      simp [getStep, truthy_of_container h2, h3 hv]
    refine ⟨cur2, h1, h2, by simpa using hget, fun hsafe => ?_⟩
    have hjs : getStepJs (some cur2) k = some v := by
      rw [getStepJs_eq_getStep k h2 (hsafe k (List.mem_cons_self k []))]
      exact hget
    simpa using hjs
  | cons k2 rest ih =>
    intro k cur v hc hv
    obtain ⟨child2, hs1, hs2, hs3, hs4⟩ :=
      ih k2 (materializeChild (rawGet cur k) k2) v (materializeChild_container _ _) hv
    obtain ⟨cur2, hr1, hr2, hr3⟩ := rawSet_container cur k child2 hc
    have hget : getStep (some cur2) k = some child2 := by
      simp [getStep, truthy_of_container hr2, hr3 (container_ne_undef hs2)]
    refine ⟨cur2, ?_, hr2, ?_, fun hsafe => ?_⟩
    · cases cur with
      | obj fs => simp [setGo, hs1, hr1]
      | arr es ps => simp [setGo, hs1, hr1]
      | null => simp [isContainer] at hc
      | undef => simp [isContainer] at hc
      | bool b => simp [isContainer] at hc
      | num n => simp [isContainer] at hc
      | str s => simp [isContainer] at hc
    · simp only [List.foldl, hget]
      exact hs3
    · have hjs : getStepJs (some cur2) k = some child2 := by
        rw [getStepJs_eq_getStep k hr2 (hsafe k (List.mem_cons_self k (k2 :: rest)))]
        exact hget
      simp only [List.foldl, hjs]
      exact hs4 (fun seg hseg => hsafe seg (List.mem_cons_of_mem k hseg))

/-- C1: for every path whose next segment after a scalar-valued intermediate
node is a string key, `setConfig` discards the type-incompatible scalar and
materializes the mapping the next segment requires; in particular, on the
document `{a: {b: 1}}`, `setConfig("a.b.c", 2)` yields
`{a: {b: {c: 2}}}`, discarding the scalar `1`. -/
theorem setConfig_replaces_scalar_intermediate :
    (∀ (w : Value) (s : String), isScalar w = true →
      materializeChild (some w) (Seg.key s) = Value.obj []) ∧
    setConfig (Value.obj [("a", Value.obj [("b", Value.num 1)])]) "a.b.c" (Value.num 2)
      = some (Value.obj [("a", Value.obj [("b", Value.obj [("c", Value.num 2)])])]) := by
  constructor
  · intro w s hw
    cases w <;> simp_all [isScalar, materializeChild, truthy, isObjLike]
  · rfl

/-- Witness for C1 at the scalar `1` met by segment `c`. -/
theorem setConfig_replaces_scalar_intermediate_witness :
    isScalar (Value.num 1) = true ∧
    materializeChild (some (Value.num 1)) (Seg.key "c") = Value.obj [] :=
  ⟨rfl, setConfig_replaces_scalar_intermediate.1 (Value.num 1) "c" rfl⟩

/-- C2 (evaluation at the failing input): `_parsePath` turns the `0` of
`"arr.0.name"` into the string key `"0"`, not a numeric index — contradicting
its own header comment (`'arr.0.key' -> ['arr', 0, 'key']`) — so on the empty
document `setConfig("arr.0.name", "x")` builds `{arr: {"0": {name: "x"}}}`,
a nested mapping, rather than the `{arr: [{name: "x"}]}` the spec states. -/
theorem setConfig_dot_digit_builds_mapping :
    parsePath "arr.0.name" = [Seg.key "arr", Seg.key "0", Seg.key "name"] ∧
    setConfig (Value.obj []) "arr.0.name" (Value.str "x")
      = some (Value.obj [("arr", Value.obj [("0", Value.obj [("name", Value.str "x")])])]) ∧
    setConfig (Value.obj []) "arr.0.name" (Value.str "x")
      ≠ some (Value.obj [("arr", Value.arr [Value.obj [("name", Value.str "x")]] [])]) := by
  refine ⟨rfl, rfl, ?_⟩
  intro h
  rw [show setConfig (Value.obj []) "arr.0.name" (Value.str "x")
      = some (Value.obj [("arr", Value.obj [("0", Value.obj [("name", Value.str "x")])])]) from rfl] at h
  simp at h

/-- C3 (amended): `getConfig` never raises (the `acc &&` guard forecloses
the only throwing reads, so the embedding is a total function); a falsy path
returns the whole document, and once a step yields `undefined` the reduce
stays at `undefined` — both also under the enriched read; and a step into a
non-container node resolves nothing *among the document's own structural
content*.  The program, however, also resolves JS exotic properties there
(boxed-primitive reads such as `"hi".length`, inherited prototype methods),
so the original blanket "absent as soon as a segment cannot be resolved" is
guaranteed only up to those — see the counterexample. -/
theorem getConfig_never_raises :
    (∀ d : Value, getConfig d "" = some d) ∧
    (∀ d : Value, getConfigJs d "" = some d) ∧
    (∀ segs : List Seg, List.foldl getStep none segs = none) ∧
    (∀ segs : List Seg, List.foldl getStepJs none segs = none) ∧
    (∀ (v : Value) (k : Seg), isContainer v = false → getStep (some v) k = none) := by
  refine ⟨fun d => rfl, fun d => rfl, ?_, ?_, ?_⟩
  · intro segs
    induction segs with
    | nil => rfl
    | cons k segs ih => simpa [getStep] using ih
  · intro segs
    induction segs with
    | nil => rfl
    | cons k segs ih => simpa [getStepJs] using ih
  · intro v k hv
    cases v <;> simp_all [isContainer, getStep, truthy, rawGet]

/-- Witness for C3 with the document `{a: 3}`: empty path returns the whole
document under both reads, a failed segment absorbs under both reads, and
stepping into the scalar `3` yields `undefined` structurally. -/
theorem getConfig_never_raises_witness :
    getConfig (Value.obj [("a", Value.num 3)]) "" = some (Value.obj [("a", Value.num 3)]) ∧
    getConfigJs (Value.obj [("a", Value.num 3)]) "" = some (Value.obj [("a", Value.num 3)]) ∧
    List.foldl getStep none [Seg.key "b"] = none ∧
    List.foldl getStepJs none [Seg.key "b"] = none ∧
    getStep (some (Value.num 3)) (Seg.key "b") = none :=
  ⟨getConfig_never_raises.1 _, getConfig_never_raises.2.1 _,
    getConfig_never_raises.2.2.1 _, getConfig_never_raises.2.2.2.1 _,
    getConfig_never_raises.2.2.2.2 (Value.num 3) (Seg.key "b") rfl⟩

/-- C3 (counterexample to the claim as stated): on the document `{a: "hi"}`
the well-formed path `"a.length"` steps into the non-container scalar
`"hi"`, yet the program returns `2` — the boxed string's `length`, for which
`acc[k] !== undefined` holds — not the absent value the claim promises. -/
theorem getConfig_boxed_length_counterexample :
    getConfigJs (Value.obj [("a", Value.str "hi")]) "a.length" = some (Value.num 2) ∧
    isContainer (Value.str "hi") = false :=
  ⟨rfl, rfl⟩

/-- C4 (amended): on a store whose document root is a container — as the
freshly constructed store and every decoded mapping/sequence root are — a
`setConfig` through any non-trivially-parsed path succeeds and an immediate
`getConfig` of the same path returns exactly the value written (for a
defined value), under the structural read and the enriched read alike,
provided no parsed segment is the key `"length"` or `"__proto__"`: at an
array's `length` the program coerces or throws a `RangeError` instead of
storing the value, and at `"__proto__"` JS invokes the `Object.prototype`
accessor (a primitive write is silently dropped and the read returns the
prototype), neither of which the structural embedding represents. -/
theorem set_then_get_roundtrip (d : Value) (s : String) (v : Value)
    (hd : isContainer d = true) (hv : v ≠ Value.undef) (hs : parsePath s ≠ [])
    (hsafe : ∀ k ∈ parsePath s, k ≠ Seg.key "length" ∧ k ≠ Seg.key "__proto__") :
    (setConfig d s v).bind (fun d2 => getConfig d2 s) = some v ∧
    (setConfig d s v).bind (fun d2 => getConfigJs d2 s) = some v := by
  match hp : parsePath s with
  | [] => exact absurd hp hs
  | k :: rest =>
    obtain ⟨d2, h1, _, h3, h4⟩ := setGo_roundtrip rest k d v hd hv
    have hne : s ≠ "" := by
      intro h
      rw [h] at hp
      simp [parsePath] at hp
    constructor
    · simp only [setConfig, hp, h1, getConfig, if_neg hne]
      simpa using h3
    · simp only [setConfig, hp, h1, getConfigJs, if_neg hne]
      have := h4 (fun seg hseg => (hsafe seg (hp ▸ hseg)).1)
      simpa using this

/-- Witness for C4: writing `1` at `"a"` into the empty mapping and reading
it back under both reads. -/
theorem set_then_get_roundtrip_witness :
    (setConfig (Value.obj []) "a" (Value.num 1)).bind (fun d2 => getConfig d2 "a")
      = some (Value.num 1) ∧
    (setConfig (Value.obj []) "a" (Value.num 1)).bind (fun d2 => getConfigJs d2 "a")
      = some (Value.num 1) :=
  set_then_get_roundtrip (Value.obj []) "a" (Value.num 1) rfl (by simp)
    (by decide) (by decide)

/-- C4 (counterexample to the unrestricted claim): a store can hold a scalar
root (`loadConfig` of a JSON file containing `5` leaves `_config === 5`);
there `setConfig("a", 2)` is silently discarded — a sloppy-mode property
write on a primitive — and the follow-up `getConfig("a")` returns
`undefined`, not the written value. -/
theorem set_then_get_roundtrip_counterexample :
    setConfig (Value.num 5) "a" (Value.num 2) = some (Value.num 5) ∧
    (setConfig (Value.num 5) "a" (Value.num 2)).bind (fun d2 => getConfig d2 "a") = none :=
  ⟨rfl, rfl⟩

/-- C5: a load of a nonexistent path fails with the file-not-found error and
returns the state untouched (every throw in `loadConfig` precedes both
mutations), while a successful load replaces the document wholesale and
remembers the canonical path for later bare `saveConfig()` calls. -/
theorem loadConfig_atomic_on_error :
    (∀ (fs : String → Option String) (res : String → String)
        (dec : Format → String → Option Value) (st : SvcState) (p : String),
      fs (res p) = none →
      loadConfig fs res dec st p = (st, some LoadErr.fileNotFound)) ∧
    (∀ (fs : String → Option String) (res : String → String)
        (dec : Format → String → Option Value) (st : SvcState) (p : String)
        (raw : String) (fmt : Format) (doc : Value),
      fs (res p) = some raw → detectFormat (res p) = some fmt → dec fmt raw = some doc →
      loadConfig fs res dec st p
        = ({ config := doc, configPath := some (res p) }, none)) := by
  constructor
  · intro fs res dec st p h
    simp [loadConfig, h]
  · intro fs res dec st p raw fmt doc h1 h2 h3
    simp [loadConfig, h1, h2, h3]

/-- Witness for C5: a missing file leaves the fresh store intact; a present
`x.json` decoding to `5` replaces the document and remembers the path. -/
theorem loadConfig_atomic_on_error_witness :
    loadConfig (fun _ => none) (fun x => x) (fun _ _ => none)
        { config := Value.obj [], configPath := none } "gone.json"
      = ({ config := Value.obj [], configPath := none }, some LoadErr.fileNotFound) ∧
    loadConfig (fun _ => some "5") (fun x => x) (fun _ _ => some (Value.num 5))
        { config := Value.obj [], configPath := none } "x.json"
      = ({ config := Value.num 5, configPath := some "x.json" }, none) :=
  ⟨loadConfig_atomic_on_error.1 _ _ _ _ _ rfl,
    loadConfig_atomic_on_error.2 _ _ _ _ _ "5" Format.json (Value.num 5) rfl rfl rfl⟩

/-- C10: the existence check runs before format detection, so a path that
does not exist fails with the file-not-found error even when its extension is
unsupported; conversely an unsupported-format failure implies the file
existed. -/
theorem loadConfig_exists_before_detect :
    (∀ (fs : String → Option String) (res : String → String)
        (dec : Format → String → Option Value) (st : SvcState) (p : String),
      fs (res p) = none → detectFormat (res p) = none →
      (loadConfig fs res dec st p).2 = some LoadErr.fileNotFound) ∧
    (∀ (fs : String → Option String) (res : String → String)
        (dec : Format → String → Option Value) (st : SvcState) (p : String),
      (loadConfig fs res dec st p).2 = some LoadErr.unsupportedFormat →
      (fs (res p)).isSome = true) := by
  constructor
  · intro fs res dec st p h _
    simp [loadConfig, h]
  · intro fs res dec st p h
    cases hfs : fs (res p) with
    | none => simp [loadConfig, hfs] at h
    | some raw => rfl

/-- Witness for C10 at a path that neither exists nor has a supported
extension: the failure is the file-not-found error. -/
theorem loadConfig_exists_before_detect_witness :
    detectFormat "gone.yaml" = none ∧
    (loadConfig (fun _ => none) (fun x => x) (fun _ _ => none)
        { config := Value.obj [], configPath := none } "gone.yaml").2
      = some LoadErr.fileNotFound ∧
    (loadConfig (fun _ => some "x") (fun x => x) (fun _ _ => none)
        { config := Value.obj [], configPath := none } "gone.yaml").2
      = some LoadErr.unsupportedFormat ∧
    ((fun (_ : String) => some "x") ((fun x => x) "gone.yaml")).isSome = true :=
  ⟨rfl, loadConfig_exists_before_detect.1 _ _ _ _ _ rfl rfl, rfl,
    loadConfig_exists_before_detect.2 (fun _ => some "x") (fun x => x) (fun _ _ => none)
      { config := Value.obj [], configPath := none } "gone.yaml" rfl⟩

/-- C6 (amended): for every non-null document, the CSV encode takes exactly
one of the three branches, but the first branch is keyed on
`typeof v !== 'object' || Array.isArray(v)` — not on "flat and
scalar-valued": top-level sequences pass it (and a lone top-level `records`
sequence therefore encodes as two columns, never reaching the table branch),
while a top-level `null` value fails it; the table branch is reached only
when some top-level value is a non-array object and `records` is a
sequence. -/
theorem saveCsv_shape_dispatch (d : Value) (h0 : d ≠ Value.null) (h1 : d ≠ Value.undef) :
    (csvFlatOk d = true → csvOutcome d = CsvOutcome.twoCol (jsOwnEntries d)) ∧
    (∀ es ps, csvFlatOk d = false → rawGet d (Seg.key "records") = some (Value.arr es ps) →
      csvOutcome d = CsvOutcome.table es) ∧
    (csvFlatOk d = false → isArrayO (rawGet d (Seg.key "records")) = false →
      csvOutcome d = CsvOutcome.saveErr) := by
  refine ⟨?_, ?_, ?_⟩
  · intro hf
    cases d <;> simp_all [csvOutcome]
  · intro es ps hf hr
    cases d <;> simp_all [csvOutcome]
  · intro hf hr
    cases d
    case null => exact absurd rfl h0
    case undef => exact absurd rfl h1
    all_goals
      simp only [csvOutcome, hf, Bool.false_eq_true, if_false]
      split
      · rename_i es ps heq
        rw [heq] at hr
        simp [isArrayO] at hr
      · rfl

/-- Witness for C6 on `{port: "8080"}` (two columns), on
`{meta: {}, records: [1]}` (table), and on `{a: null}` (save error — even
though `null` is a scalar of the document model). -/
theorem saveCsv_shape_dispatch_witness :
    csvOutcome (Value.obj [("port", Value.str "8080")])
      = CsvOutcome.twoCol [("port", Value.str "8080")] ∧
    csvOutcome (Value.obj [("meta", Value.obj []), ("records", Value.arr [Value.num 1] [])])
      = CsvOutcome.table [Value.num 1] ∧
    csvOutcome (Value.obj [("a", Value.null)]) = CsvOutcome.saveErr :=
  ⟨(saveCsv_shape_dispatch (Value.obj [("port", Value.str "8080")])
      (by simp) (by simp)).1 rfl,
    (saveCsv_shape_dispatch (Value.obj [("meta", Value.obj []), ("records", Value.arr [Value.num 1] [])])
      (by simp) (by simp)).2.1 [Value.num 1] [] rfl rfl,
    (saveCsv_shape_dispatch (Value.obj [("a", Value.null)])
      (by simp) (by simp)).2.2 rfl rfl⟩

/-- C6 (counterexample to the claim as stated): the document
`{records: [{a: 1}]}` has a top-level `records` sequence, so the claim
promises the header-plus-rows table; but its only top-level value is an
array, which passes `typeof v !== 'object' || Array.isArray(v)`, so the code
takes the two-column branch instead. -/
theorem saveCsv_records_only_takes_two_columns :
    csvOutcome (Value.obj [("records", Value.arr [Value.obj [("a", Value.num 1)]] [])])
      = CsvOutcome.twoCol [("records", Value.arr [Value.obj [("a", Value.num 1)]] [])] ∧
    csvIsTable (csvOutcome (Value.obj [("records", Value.arr [Value.obj [("a", Value.num 1)]] [])]))
      = false :=
  ⟨rfl, rfl⟩

/-- C7: when every raw change notification arrives before the deadline of the
timer armed by its predecessor (all gaps under the 150 ms window, the window
restarting at each notification), the debounce timer expires exactly once —
one reload — at 150 ms past the last notification, and when that reload
succeeds exactly one `changed` notification is delivered; the callback thus
runs at most once for the whole burst. -/
theorem debounce_window_single_reload (t : Nat) (rest : List Nat) (ok : Nat → Bool)
    (h : List.Chain (fun a b => b < a + DEBOUNCE_MS) t rest) :
    fireTimes (t :: rest) = [rest.getLastD t + DEBOUNCE_MS] ∧
    (ok (rest.getLastD t + DEBOUNCE_MS) = true →
      changedTimes ok (t :: rest) = [rest.getLastD t + DEBOUNCE_MS]) := by
  induction rest generalizing t with
  | nil =>
    refine ⟨rfl, fun hok => ?_⟩
    simp only [List.getLastD] at hok
    simp [changedTimes, fireTimes, List.filter_cons, hok]
  | cons t2 rest ih =>
    rw [List.chain_cons] at h
    have hfire : fireTimes (t :: t2 :: rest) = fireTimes (t2 :: rest) := by
      simp [fireTimes, h.1]
    have hlast : (t2 :: rest).getLastD t = rest.getLastD t2 := List.getLastD_cons _ _ _
    have hrec := ih t2 h.2
    refine ⟨?_, fun hok => ?_⟩
    · rw [hfire, hlast]
      exact hrec.1
    · rw [hlast] at hok
      rw [hlast]
      simp only [changedTimes] at hrec ⊢
      rw [hfire]
      exact hrec.2 hok

/-- Witness for C7 with three notifications 0, 100 and 200 (gaps below the
150 ms window): a single timer expiry, reload and `changed` delivery at
350 ms. -/
theorem debounce_window_single_reload_witness :
    fireTimes [0, 100, 200] = [350] ∧
    ((fun (_ : Nat) => true) 350 = true →
      changedTimes (fun _ => true) [0, 100, 200] = [350]) :=
  debounce_window_single_reload 0 [100, 200] (fun _ => true)
    (List.Chain.cons (by decide) (List.Chain.cons (by decide) List.Chain.nil))

/-- C8: `unwatchConfig` on a path with no registered watch entry changes
nothing (idempotence in general: a second unwatch of the same path is a
no-op), and after an unwatch the previously armed debounce timer has been
cleared, so its expiry performs no reload, callback or `changed`
notification. -/
theorem unwatch_idempotent_and_cancels_timer :
    (∀ (res : String → String) (s : WatchSvc) (p : String),
      res p ∉ s.watched → (∀ e ∈ s.pending, e.1 ≠ res p) →
      unwatchConfig res s p = s) ∧
    (∀ (res : String → String) (s : WatchSvc) (p : String),
      unwatchConfig res (unwatchConfig res s p) p = unwatchConfig res s p) ∧
    (∀ (res : String → String) (s : WatchSvc) (p : String),
      fireTimer (unwatchConfig res s p) (res p) = (unwatchConfig res s p, false)) := by
  refine ⟨?_, ?_, ?_⟩
  · intro res s p hw hp
    obtain ⟨w, pd⟩ := s
    have hfw : w.filter (fun q => q != res p) = w :=
      List.filter_eq_self.mpr (fun a ha => bne_iff_ne.mpr (fun hEq => hw (hEq ▸ ha)))
    have hfp : pd.filter (fun e => e.1 != res p) = pd :=
      List.filter_eq_self.mpr (fun e he => bne_iff_ne.mpr (hp e he))
    simp [unwatchConfig, hfw, hfp]
  · intro res s p
    simp [unwatchConfig, List.filter_filter]
  · intro res s p
    have hany : ((unwatchConfig res s p).pending.any (fun e => e.1 == res p)) = false := by
      by_contra hcon
      rw [Bool.not_eq_false, List.any_eq_true] at hcon
      obtain ⟨e, he, heq⟩ := hcon
      rw [beq_iff_eq] at heq
      have := (List.mem_filter.mp he).2
      rw [bne_iff_ne] at this
      exact this heq
    simp [fireTimer, hany]

/-- Witness for C8: unwatching the unknown path `"b"` leaves the state
untouched, a repeated unwatch of `"a"` is a no-op, and a timer expiry after
unwatching `"a"` performs nothing. -/
theorem unwatch_idempotent_and_cancels_timer_witness :
    unwatchConfig (fun x => x) ⟨["a"], [("a", 500)]⟩ "b" = ⟨["a"], [("a", 500)]⟩ ∧
    unwatchConfig (fun x => x) (unwatchConfig (fun x => x) ⟨["a"], [("a", 500)]⟩ "a") "a"
      = unwatchConfig (fun x => x) ⟨["a"], [("a", 500)]⟩ "a" ∧
    fireTimer (unwatchConfig (fun x => x) ⟨["a"], [("a", 500)]⟩ "a") "a"
      = (unwatchConfig (fun x => x) ⟨["a"], [("a", 500)]⟩ "a", false) :=
  ⟨unwatch_idempotent_and_cancels_timer.1 (fun x => x) ⟨["a"], [("a", 500)]⟩ "b"
      (by decide) (by decide),
    unwatch_idempotent_and_cancels_timer.2.1 (fun x => x) ⟨["a"], [("a", 500)]⟩ "a",
    unwatch_idempotent_and_cancels_timer.2.2 (fun x => x) ⟨["a"], [("a", 500)]⟩ "a"⟩

theorem plain_of_digit {c : Char} (h : c.isDigit = true) : isPlainChar c = true := by
  have h1 : c ≠ '[' := fun hc => by rw [hc] at h; exact absurd h (by decide)
  have h2 : c ≠ '.' := fun hc => by rw [hc] at h; exact absurd h (by decide)
  have h3 : c ≠ ']' := fun hc => by rw [hc] at h; exact absurd h (by decide)
  simp [isPlainChar, h1, h2, h3]

theorem ne_of_plain {c : Char} (h : isPlainChar c = true) :
    c ≠ '[' ∧ c ≠ '.' ∧ c ≠ ']' := by
  simp only [isPlainChar, Bool.and_eq_true, bne_iff_ne, decide_eq_true_eq] at h
  exact ⟨h.1.1, h.1.2, h.2⟩

theorem takeWhile_of_all {α} (p : α → Bool) :
    ∀ l : List α, (∀ c ∈ l, p c = true) → l.takeWhile p = l := by
  intro l h
  induction l with
  | nil => rfl
  | cons a l ih =>
    simp [List.takeWhile, h a (List.mem_cons_self a l),
      ih (fun c hc => h c (List.mem_cons_of_mem a hc))]

theorem dropWhile_of_all {α} (p : α → Bool) :
    ∀ l : List α, (∀ c ∈ l, p c = true) → l.dropWhile p = [] := by
  intro l h
  induction l with
  | nil => rfl
  | cons a l ih =>
    simp [List.dropWhile, h a (List.mem_cons_self a l),
      ih (fun c hc => h c (List.mem_cons_of_mem a hc))]

theorem takeWhile_append_stop {α} (p : α → Bool) :
    ∀ (l : List α) (x : α) (r : List α), (∀ c ∈ l, p c = true) → p x = false →
      ((l ++ x :: r).takeWhile p) = l := by
  intro l x r hl hx
  induction l with
  | nil => simp [List.takeWhile, hx]
  | cons a l ih =>
    simp [List.takeWhile, hl a (List.mem_cons_self a l),
      ih (fun c hc => hl c (List.mem_cons_of_mem a hc))]

theorem dropWhile_append_stop {α} (p : α → Bool) :
    ∀ (l : List α) (x : α) (r : List α), (∀ c ∈ l, p c = true) → p x = false →
      ((l ++ x :: r).dropWhile p) = x :: r := by
  intro l x r hl hx
  induction l with
  | nil => simp [List.dropWhile, hx]
  | cons a l ih =>
    simp [List.dropWhile, hl a (List.mem_cons_self a l),
      ih (fun c hc => hl c (List.mem_cons_of_mem a hc))]

theorem mk_data_eq (s : String) : String.mk s.data = s := by
  obtain ⟨l⟩ := s
  rfl

theorem data_eq_nil_iff (s : String) : s.data = [] ↔ s = "" :=
  ⟨fun h => by rw [← mk_data_eq s, h], fun h => by rw [h]⟩

/-- C9: path parsing treats a digit run by notation — a bracketed `[n]`
becomes the numeric index `n` while the same digits in dot notation stay a
string key (the `0` of `a.0.b` included) — and `setConfig` consequently
materializes a sequence exactly for a bracket-notation segment and a mapping
for the dot-notation digits. -/
theorem parse_digits_bracket_vs_dot (s : String) (h1 : s ≠ "")
    (h2 : ∀ c ∈ s.data, c.isDigit = true) :
    parsePath ("[" ++ s ++ "]") = [Seg.idx (natOfDigits s.data)] ∧
    parsePath s = [Seg.key s] ∧
    parsePath "a.0.b" = [Seg.key "a", Seg.key "0", Seg.key "b"] ∧
    parsePath "a[0].b" = [Seg.key "a", Seg.idx 0, Seg.key "b"] ∧
    setConfig (Value.obj []) "a[0]" (Value.num 7)
      = some (Value.obj [("a", Value.arr [Value.num 7] [])]) ∧
    setConfig (Value.obj []) "a.0" (Value.num 7)
      = some (Value.obj [("a", Value.obj [("0", Value.num 7)])]) := by
  have hdnil : s.data ≠ [] := fun hc => h1 ((data_eq_nil_iff s).mp hc)
  refine ⟨?_, ?_, rfl, rfl, rfl, rfl⟩
  · have hdata : ("[" ++ s ++ "]").data = '[' :: (s.data ++ [']']) := by
      rw [String.data_append, String.data_append]
      rfl
    have hne : ("[" ++ s ++ "]") ≠ "" := by
      intro hc
      rw [hc] at hdata
      exact List.noConfusion hdata
    have hdrop : (s.data ++ [']']).dropWhile Char.isDigit = [']'] :=
      dropWhile_append_stop Char.isDigit s.data ']' [] h2 (by decide)
    have htake : (s.data ++ [']']).takeWhile Char.isDigit = s.data :=
      takeWhile_append_stop Char.isDigit s.data ']' [] h2 (by decide)
    rw [parsePath, if_neg hne, parseSegs, hdata]
    simp only [List.length_cons, parseSegsF, if_pos rfl]
    rw [hdrop, htake]
    have hempty : s.data.isEmpty = false := by
      cases hsd : s.data with
      | nil => exact absurd hsd hdnil
      | cons c cs => rfl
    simp [hempty, parseSegsF]
  · cases hsd : s.data with
    | nil => exact absurd hsd hdnil
    | cons c cs =>
      have hplain : ∀ x ∈ c :: cs, isPlainChar x = true := by
        intro x hx
        exact plain_of_digit (h2 x (hsd ▸ hx))
      have hc := ne_of_plain (hplain c (List.mem_cons_self c cs))
      have hcs : ∀ x ∈ cs, isPlainChar x = true :=
        fun x hx => hplain x (List.mem_cons_of_mem c hx)
      rw [parsePath, if_neg h1, parseSegs, hsd]
      simp only [List.length_cons, parseSegsF, if_neg hc.1,
        if_neg (not_or.mpr ⟨hc.2.1, hc.2.2⟩)]
      rw [takeWhile_of_all isPlainChar cs hcs, dropWhile_of_all isPlainChar cs hcs]
      rw [← hsd, mk_data_eq]
      simp [parseSegsF]

/-- Witness for C9 at the digit run `"0"`. -/
theorem parse_digits_bracket_vs_dot_witness :
    parsePath "[0]" = [Seg.idx 0] ∧
    parsePath "0" = [Seg.key "0"] ∧
    parsePath "a.0.b" = [Seg.key "a", Seg.key "0", Seg.key "b"] ∧
    parsePath "a[0].b" = [Seg.key "a", Seg.idx 0, Seg.key "b"] ∧
    setConfig (Value.obj []) "a[0]" (Value.num 7)
      = some (Value.obj [("a", Value.arr [Value.num 7] [])]) ∧
    setConfig (Value.obj []) "a.0" (Value.num 7)
      = some (Value.obj [("a", Value.obj [("0", Value.num 7)])]) :=
  parse_digits_bracket_vs_dot "0" (by decide) (by decide)

end ConfigService
